import Mathlib

/-
Shallow embedding of the repository brenns10/spideroak-scripts
(src/spideroak.py and src/main.py).

The changelog parser (ChangelogEntry.regex + ChangelogEntry.parse) is a
three-line regular expression with named captures.  It is embedded here as a
deterministic maximal-munch matcher over lists of characters; determinism is
justified because in the source pattern every greedy repetition
(a run of word characters, digits, letters or whitespace) is followed by a
token drawn from a disjoint character class, so the backtracking engine has
exactly one viable path; the only genuinely backtracking piece, the
quote-delimited target capture followed by a backreference and an explicit
newline, forces the closing quote to be the final character of line one.
Character classes are modelled at ASCII granularity.
-/

/-- Calendar timestamp as produced by datetime.strptime with the format
%a %b %d %H:%M:%S %Y.  The parsed weekday abbreviation is discarded, as in
Python, whose datetime object stores no weekday. -/
structure DateTime where
  year : Nat
  month : Nat
  day : Nat
  hour : Nat
  minute : Nat
  second : Nat
deriving Repr, DecidableEq

/-- Python error model for this program.  ParseError is the exception class
declared in src/spideroak.py (a subclass of ValueError) and is raised
explicitly by ChangelogEntry.parse; valueError models a generic ValueError,
such as one raised by datetime.strptime on a bad time string. -/
inductive PyError where
  | parseError (msg : String)
  | valueError (msg : String)
deriving Repr, DecidableEq

/-- One parsed changelog record, mirroring the fields that
ChangelogEntry.__init__ stores in src/spideroak.py. -/
structure ChangelogEntry where
  time : DateTime
  action : String
  target : String
  type : String
  mode : Nat
  uid : Nat
  gid : Nat
  size : Nat
  mtime : DateTime
  ctime : DateTime
deriving Repr, DecidableEq

/-- The pure core of last_nonzero in src/main.py: iterate over the reversed
record list and return the first entry whose size is nonzero, else None.
The source obtains the record list from file_changelog; here the list is the
argument. -/
def last_nonzero (records : List ChangelogEntry) : Option ChangelogEntry :=
  records.reverse.find? (fun e => e.size != 0)

/-- The name filter inside file_changelog in src/spideroak.py: the list
comprehension keeping exactly the entries whose target equals the given
name. -/
def filter_by_name (records : List ChangelogEntry) (name : String) :
    List ChangelogEntry :=
  records.filter (fun e => e.target == name)

/-- A fixed sample timestamp used to build concrete records in tests. -/
def dt0 : DateTime := ⟨2015, 6, 1, 12, 34, 56⟩

/-- A concrete changelog record with a given size and target name. -/
def entryOfSize (n : Nat) (name : String) : ChangelogEntry :=
  ⟨dt0, "add", name, "file", 644, 1000, 1000, n, dt0, dt0⟩

/-- The five-record history with sizes 100, 0, 50, 0, 0 named in the spec. -/
def historyC1 : List ChangelogEntry :=
  [entryOfSize 100 "f", entryOfSize 0 "f", entryOfSize 50 "f",
   entryOfSize 0 "f", entryOfSize 0 "f"]


/-- Stride slicing: sliceStep l n keeps the head of l and then every n-th
element after it, so that sliceStep (l.drop i) n models the Python slice
l[i::n] used by n_tuples in src/spideroak.py. -/
def sliceStep : List α → Nat → List α
  | [], _ => []
  | x :: xs, n => x :: sliceStep (xs.drop (n - 1)) n
termination_by l _ => l.length
decreasing_by
  simp only [List.length_drop, List.length_cons]
  omega

/-- The Python slice l[i::n]. -/
def pySlice (l : List α) (i n : Nat) : List α :=
  sliceStep (l.drop i) n

/-- Heads of a list of lists: some list of the heads when every list is
nonempty, none otherwise.  This is one step of the Python zip built-in. -/
def heads? : List (List α) → Option (List α)
  | [] => some []
  | [] :: _ => none
  | (x :: _) :: rest => (heads? rest).map (fun t => x :: t)

/-- Fuel-driven core of the Python zip built-in over a list of argument
lists: while every argument list is nonempty, emit the list of heads and
continue on the tails.  The fuel is an upper bound on the number of steps;
zipStar supplies the length of the first argument list, which bounds the
length of the shortest one. -/
def zipStarAux : Nat → List (List α) → List (List α)
  | 0, _ => []
  | fuel + 1, cols =>
    if cols.isEmpty then []
    else
      match heads? cols with
      | some hd => hd :: zipStarAux fuel (cols.map List.tail)
      | none => []

/-- The Python expression list(zip(star of cols)): tuples of heads until the
shortest argument list is exhausted; zero argument lists give zero tuples. -/
def zipStar (cols : List (List α)) : List (List α) :=
  zipStarAux ((cols.headD []).length) cols

/-- n_tuples from src/spideroak.py: zip over the n stride-n slices
l[0::n], ..., l[n-1::n]. -/
def n_tuples (l : List α) (n : Nat) : List (List α) :=
  zipStar ((List.range n).map (fun i => pySlice l i n))

/-- Naive consecutive chunking with the remainder dropped, written from the
words of the claim: floor(len(l)/n) tuples, the j-th tuple being the
consecutive chunk of n elements starting at index j*n.  This is the
specification n_tuples is compared with. -/
def chunksSpec (l : List α) (n : Nat) : List (List α) :=
  (List.range (l.length / n)).map (fun j => (l.drop (j * n)).take n)


/-- ASCII model of the regex class [a-zA-Z]. -/
def isAlphaChar (c : Char) : Bool := c.isAlpha

/-- ASCII model of the regex class \d. -/
def isDigitChar (c : Char) : Bool := c.isDigit

/-- ASCII model of the regex class \s. -/
def isSpaceChar (c : Char) : Bool :=
  c = ' ' || c = '\t' || c = '\n' || c = '\r' || c = '\x0b' || c = '\x0c'

/-- ASCII model of the regex class \w. -/
def isWordChar (c : Char) : Bool := c.isAlphanum || c = '_'

/-- Numeric value of a decimal digit character. -/
def digitVal (c : Char) : Nat := c.toNat - 48

/-- Value of a decimal digit string, as the Python int built-in computes it
on a string of digits (leading zeros allowed, never negative, never
failing). -/
def parseVal (l : List Char) : Nat :=
  l.foldl (fun acc c => 10 * acc + digitVal c) 0

/-- Match exactly n characters satisfying p, as a counted regex class such
as [a-zA-Z]{3}; returns the matched characters and the rest. -/
def takeExact : Nat → (Char → Bool) → List Char → Option (List Char × List Char)
  | 0, _, l => some ([], l)
  | n + 1, p, c :: cs =>
    if p c then (takeExact n p cs).map (fun pr => (c :: pr.1, pr.2)) else none
  | _ + 1, _, [] => none

/-- Match one or more characters satisfying p by maximal munch, as a greedy
regex repetition followed by a token from a disjoint class. -/
def takeSome (p : Char → Bool) : List Char → Option (List Char × List Char)
  | [] => none
  | c :: cs =>
    if p c then some (c :: cs.takeWhile p, cs.dropWhile p) else none

/-- Match one literal character. -/
def expectChar (c : Char) : List Char → Option (List Char)
  | [] => none
  | d :: ds => if d = c then some ds else none

/-- Match a literal string of characters. -/
def expectStr : List Char → List Char → Option (List Char)
  | [], l => some l
  | c :: cs, l => (expectChar c l).bind (expectStr cs)

/-- The time_re part of ChangelogEntry.regex: three letters (weekday),
whitespace, three letters (month), whitespace, digits (day of month),
whitespace, two digits, colon, two digits, colon, two digits, one space,
four digits (year).  Returns the matched characters (the capture handed to
strptime) and the rest of the input. -/
def matchTime (l : List Char) : Option (List Char × List Char) :=
  match takeExact 3 isAlphaChar l with
  | none => none
  | some (a1, r) =>
  match takeSome isSpaceChar r with
  | none => none
  | some (s1, r) =>
  match takeExact 3 isAlphaChar r with
  | none => none
  | some (a2, r) =>
  match takeSome isSpaceChar r with
  | none => none
  | some (s2, r) =>
  match takeSome isDigitChar r with
  | none => none
  | some (d1, r) =>
  match takeSome isSpaceChar r with
  | none => none
  | some (s3, r) =>
  match takeExact 2 isDigitChar r with
  | none => none
  | some (hh, r) =>
  match expectChar ':' r with
  | none => none
  | some r =>
  match takeExact 2 isDigitChar r with
  | none => none
  | some (mi, r) =>
  match expectChar ':' r with
  | none => none
  | some r =>
  match takeExact 2 isDigitChar r with
  | none => none
  | some (ss, r) =>
  match expectChar ' ' r with
  | none => none
  | some r =>
  match takeExact 4 isDigitChar r with
  | none => none
  | some (yy, r) =>
    some (a1 ++ s1 ++ a2 ++ s2 ++ d1 ++ s3 ++ hh ++ [':'] ++ mi ++ [':'] ++ ss
            ++ [' '] ++ yy, r)

/-- The single-quote character (code point 39), one of the two quote
characters of the regex alternation for the quoting style. -/
def squote : Char := Char.ofNat 39

/-- Line one of ChangelogEntry.regex on one (newline free) physical line:
the captured time, a colon, whitespace, the captured action (word
characters), whitespace, the literal u, a captured quote (single or
double), the greedy dot-star target capture and the quote backreference.
Because the pattern continues with a literal newline, the backreference can
only match the final character of the line, so the target capture is
everything strictly between the opening quote and that final character. -/
def matchLine1 (l : List Char) : Option (List Char × String × Char × String) :=
  match matchTime l with
  | none => none
  | some (t, r) =>
  match expectChar ':' r with
  | none => none
  | some r =>
  match takeSome isSpaceChar r with
  | none => none
  | some (_, r) =>
  match takeSome isWordChar r with
  | none => none
  | some (act, r) =>
  match takeSome isSpaceChar r with
  | none => none
  | some (_, r) =>
  match expectChar 'u' r with
  | none => none
  | some r =>
  match r with
  | [] => none
  | q :: rest =>
    if q = squote || q = '"' then
      match rest.getLast? with
      | some c =>
        if c = q then some (t, String.mk act, q, String.mk rest.dropLast)
        else none
      | none => none
    else none

/-- Line two of ChangelogEntry.regex: optional leading whitespace, then the
literal field labels type, mode, uid, gid and size with a word capture and
four digit captures, whitespace separated, ending the line.  The digit
captures are returned already converted by the Python int built-in, which
cannot fail on a digit string. -/
def matchLine2 (l : List Char) : Option (String × Nat × Nat × Nat × Nat) :=
  match expectStr "type:".data (l.dropWhile isSpaceChar) with
  | none => none
  | some r =>
  match takeSome isWordChar r with
  | none => none
  | some (ty, r) =>
  match takeSome isSpaceChar r with
  | none => none
  | some (_, r) =>
  match expectStr "mode:".data r with
  | none => none
  | some r =>
  match takeSome isDigitChar r with
  | none => none
  | some (mo, r) =>
  match takeSome isSpaceChar r with
  | none => none
  | some (_, r) =>
  match expectStr "uid:".data r with
  | none => none
  | some r =>
  match takeSome isDigitChar r with
  | none => none
  | some (ui, r) =>
  match takeSome isSpaceChar r with
  | none => none
  | some (_, r) =>
  match expectStr "gid:".data r with
  | none => none
  | some r =>
  match takeSome isDigitChar r with
  | none => none
  | some (gi, r) =>
  match takeSome isSpaceChar r with
  | none => none
  | some (_, r) =>
  match expectStr "size:".data r with
  | none => none
  | some r =>
  match takeSome isDigitChar r with
  | none => none
  | some (si, r) =>
  if r.isEmpty then
    some (String.mk ty, parseVal mo, parseVal ui, parseVal gi, parseVal si)
  else none

/-- Line three of ChangelogEntry.regex: optional leading whitespace, the
literal mtime label and a time capture, whitespace, the literal ctime label
and a time capture, ending the line. -/
def matchLine3 (l : List Char) : Option (List Char × List Char) :=
  match expectStr "mtime:".data (l.dropWhile isSpaceChar) with
  | none => none
  | some r =>
  match matchTime r with
  | none => none
  | some (mt, r) =>
  match takeSome isSpaceChar r with
  | none => none
  | some (_, r) =>
  match expectStr "ctime:".data r with
  | none => none
  | some r =>
  match matchTime r with
  | none => none
  | some (ct, r) =>
  if r.isEmpty then some (mt, ct) else none

/-- Abbreviated weekday names of the C locale, as the strptime directive %a
accepts. -/
def weekdayAbbrevs : List String :=
  ["Mon", "Tue", "Wed", "Thu", "Fri", "Sat", "Sun"]

/-- Abbreviated month names of the C locale, as the strptime directive %b
accepts. -/
def monthAbbrevs : List String :=
  ["Jan", "Feb", "Mar", "Apr", "May", "Jun", "Jul", "Aug", "Sep", "Oct",
   "Nov", "Dec"]

/-- Match one abbreviated name from the list, case-insensitively, as the
strptime directives %a and %b do; all the names have three characters.
Returns the zero-based index of the name and the rest of the input. -/
def matchAbbrev (names : List String) : List Char → Option (Nat × List Char)
  | c1 :: c2 :: c3 :: r =>
    match names.findIdx?
        (fun s => s.data.map Char.toLower = [c1.toLower, c2.toLower, c3.toLower]) with
    | some i => some (i, r)
    | none => none
  | _ => none

/-- A numeric strptime field matched by an alternation that prefers two
digits and falls back to one, such as the %H alternation of two-digit
values up to 23 and a bare digit: a two-digit value is taken when twoOk
accepts it, otherwise a single digit accepted by oneOk.  Regex
backtracking from the two-digit branch into the one-digit branch after a
later failure can never succeed, because the character after the single
digit is then a digit while every continuation in the format expects a
non-digit, so this committed choice is faithful. -/
def parseNum2or1 (twoOk oneOk : Nat → Bool) : List Char → Option (Nat × List Char)
  | c1 :: c2 :: r =>
    if isDigitChar c1 && isDigitChar c2 && twoOk (10 * digitVal c1 + digitVal c2) then
      some (10 * digitVal c1 + digitVal c2, r)
    else if isDigitChar c1 && oneOk (digitVal c1) then
      some (digitVal c1, c2 :: r)
    else none
  | [c1] =>
    if isDigitChar c1 && oneOk (digitVal c1) then some (digitVal c1, [])
    else none
  | [] => none

/-- Gregorian leap year test, as the Python calendar uses. -/
def isLeap (y : Nat) : Bool :=
  y % 4 = 0 && (y % 100 ≠ 0 || y % 400 = 0)

/-- Days in a month, as the datetime constructor validates the day. -/
def daysInMonth (y m : Nat) : Nat :=
  if m = 2 then (if isLeap y then 29 else 28)
  else if m = 4 || m = 6 || m = 9 || m = 11 then 30
  else 31

/-- Format-level match of datetime.strptime with the TIME_FORMAT of
src/spideroak.py, %a %b %d %H:%M:%S %Y: a weekday abbreviation (parsed and
then discarded), whitespace, a month abbreviation, whitespace, a day of
month 1..31, whitespace, an hour up to 23, colon, a minute up to 59,
colon, a second up to 61 (the %S directive admits leap seconds),
whitespace, a four-digit year, and no text left over. -/
def strptimeMatch (l : List Char) : Option DateTime :=
  match matchAbbrev weekdayAbbrevs l with
  | none => none
  | some (_, r) =>
  match takeSome isSpaceChar r with
  | none => none
  | some (_, r) =>
  match matchAbbrev monthAbbrevs r with
  | none => none
  | some (mIdx, r) =>
  match takeSome isSpaceChar r with
  | none => none
  | some (_, r) =>
  match parseNum2or1 (fun v => decide (1 ≤ v) && decide (v ≤ 31))
      (fun v => decide (1 ≤ v)) r with
  | none => none
  | some (day, r) =>
  match takeSome isSpaceChar r with
  | none => none
  | some (_, r) =>
  match parseNum2or1 (fun v => decide (v ≤ 23)) (fun _ => true) r with
  | none => none
  | some (hour, r) =>
  match expectChar ':' r with
  | none => none
  | some r =>
  match parseNum2or1 (fun v => decide (v ≤ 59)) (fun _ => true) r with
  | none => none
  | some (minute, r) =>
  match expectChar ':' r with
  | none => none
  | some r =>
  match parseNum2or1 (fun v => decide (v ≤ 61)) (fun _ => true) r with
  | none => none
  | some (second, r) =>
  match takeSome isSpaceChar r with
  | none => none
  | some (_, r) =>
  match takeExact 4 isDigitChar r with
  | none => none
  | some (yy, r) =>
  if r.isEmpty then some ⟨parseVal yy, mIdx + 1, day, hour, minute, second⟩
  else none


/-- datetime.strptime with the TIME_FORMAT of src/spideroak.py.  A failed
format match, or a failed validation inside the datetime constructor,
raises a generic ValueError, modelled as the error message; the
constructor checks run in its order: year, then day against the month
length, then second. -/
def strptime (l : List Char) : Except String DateTime :=
  match strptimeMatch l with
  | none =>
    Except.error "time data does not match format %a %b %d %H:%M:%S %Y"
  | some dt =>
    if dt.year = 0 then Except.error "year 0 is out of range"
    else if daysInMonth dt.year dt.month < dt.day then
      Except.error "day is out of range for month"
    else if 59 < dt.second then Except.error "second must be in 0..59"
    else Except.ok dt

/-- ChangelogEntry.parse from src/spideroak.py on a triplet of newline-free
lines.  The three-line regex must fullmatch the newline-joined triplet
(because the joined string holds exactly two newlines and the pattern holds
exactly two literal newlines, with every whitespace run otherwise confined
to one line, the fullmatch decomposes into the three per-line matches);
failure raises ParseError with its fixed message.  The captured fields are
then converted in the order ChangelogEntry.__init__ sets them: the time
capture through datetime.strptime first, the string and integer fields
(which cannot fail), then mtime and ctime; a strptime failure propagates as
a generic ValueError. -/
def ChangelogEntry.parse (a b c : String) : Except PyError ChangelogEntry :=
  match matchLine1 a.data, matchLine2 b.data, matchLine3 c.data with
  | some (tS, act, _q, tgt), some (ty, mo, ui, gi, si), some (mtS, ctS) =>
    match strptime tS with
    | Except.error m => Except.error (PyError.valueError m)
    | Except.ok time =>
      match strptime mtS with
      | Except.error m => Except.error (PyError.valueError m)
      | Except.ok mtime =>
        match strptime ctS with
        | Except.error m => Except.error (PyError.valueError m)
        | Except.ok ctime =>
          Except.ok ⟨time, act, tgt, ty, mo, ui, gi, si, mtime, ctime⟩
  | _, _, _ =>
    Except.error (PyError.parseError "SpiderOak output matched incorrectly.")

/-- ChangelogEntry.parse applied to one chunk yielded by n_tuples with
n = 3.  Such a chunk always has exactly three elements; a chunk of any
other length cannot arise there, and its joined text could not fullmatch
the three-line pattern, so it falls to the ParseError branch. -/
def parseChunk (t : List String) : Except PyError ChangelogEntry :=
  match t with
  | [a, b, c] => ChangelogEntry.parse a b c
  | _ =>
    Except.error (PyError.parseError "SpiderOak output matched incorrectly.")

/-- The pure batch parse inside journal_changelog in src/spideroak.py, the
operation the spec names parse_stream: group the captured output lines into
consecutive triplets with n_tuples(lines, n=3) and parse each in order; the
list comprehension materializes every record, and the first exception
aborts the whole batch with no partial result. -/
def parse_stream (lines : List String) : Except PyError (List ChangelogEntry) :=
  (n_tuples lines 3).mapM parseChunk

/-- The decimal digit character of a digit value. -/
def digitChar (d : Nat) : Char := Char.ofNat (48 + d)

/-- Decimal rendering of a natural number, used to build syntactically
valid triplets in the round-trip theorems. -/
def natStr (n : Nat) : String :=
  if n = 0 then "0"
  else String.mk (((Nat.digits 10 n).reverse).map digitChar)

/-- Two-digit zero-padded decimal rendering, as strftime emits hours,
minutes and seconds. -/
def pad2 (n : Nat) : String :=
  if n < 10 then "0" ++ natStr n else natStr n

/-- The canonical month abbreviation of a month number 1..12. -/
def monthAbbrev (m : Nat) : String := monthAbbrevs.getD (m - 1) ""

/-- A textual timestamp in TIME_FORMAT built from a weekday abbreviation
and a DateTime value.  strptime parses and then discards the weekday
without checking it against the date, so the abbreviation is an
independent input here. -/
def mkTimeStr (www : String) (dt : DateTime) : String :=
  www ++ " " ++ monthAbbrev dt.month ++ " " ++ natStr dt.day ++ " " ++
    pad2 dt.hour ++ ":" ++ pad2 dt.minute ++ ":" ++ pad2 dt.second ++ " " ++
    natStr dt.year

/-- First line of a constructed triplet: timestamp, colon, space, action,
space, the literal u, an opening quote, the target name, a closing quote.
The two quote arguments let the mismatched-quote theorems build an
ill-formed line with the same constructor. -/
def mkLine1 (ts action : String) (qopen qclose : Char) (fname : String) : String :=
  ts ++ ": " ++ action ++ " u" ++ String.mk [qopen] ++ fname ++ String.mk [qclose]

/-- Second line of a constructed triplet. -/
def mkLine2 (ty : String) (mode uid gid size : Nat) : String :=
  "type:" ++ ty ++ " mode:" ++ natStr mode ++ " uid:" ++ natStr uid ++
    " gid:" ++ natStr gid ++ " size:" ++ natStr size

/-- Third line of a constructed triplet. -/
def mkLine3 (mts cts : String) : String :=
  "mtime:" ++ mts ++ " ctime:" ++ cts

/-- A nonempty string of word characters, which is what the regex requires
of the action and entry type fields. -/
def isWordString (s : String) : Bool :=
  !s.data.isEmpty && s.data.all isWordChar

/-- Validity of a DateTime for the round-trip construction: the field
ranges the datetime constructor accepts, with a four-digit year. -/
def DateTime.valid (dt : DateTime) : Bool :=
  1 ≤ dt.month && dt.month ≤ 12 && 1 ≤ dt.day &&
    dt.day ≤ daysInMonth dt.year dt.month && dt.hour ≤ 23 &&
    dt.minute ≤ 59 && dt.second ≤ 59 && 1000 ≤ dt.year && dt.year ≤ 9999


/-- A valid sample first line (double-quoted target). -/
def lineA1 : String := "Mon Jun 1 12:34:56 2015: add u\"report.pdf\""

/-- A valid sample second line. -/
def lineA2 : String := "  type:file mode:644 uid:1000 gid:1000 size:4096"

/-- A valid sample third line. -/
def lineA3 : String :=
  "  mtime:Mon Jun 1 12:34:56 2015  ctime:Mon Jun 1 12:34:56 2015"

/-- A second valid sample first line. -/
def lineB1 : String := "Tue Jun 2 01:02:03 2015: update u\"notes.txt\""

/-- A second valid sample second line. -/
def lineB2 : String := "type:file mode:600 uid:1000 gid:100 size:0"

/-- A second valid sample third line. -/
def lineB3 : String :=
  "mtime:Tue Jun 2 01:02:03 2015 ctime:Mon Jun 1 12:34:56 2015"

/-- The record the first sample triplet parses to. -/
def entryA : ChangelogEntry :=
  ⟨⟨2015, 6, 1, 12, 34, 56⟩, "add", "report.pdf", "file", 644, 1000, 1000,
   4096, ⟨2015, 6, 1, 12, 34, 56⟩, ⟨2015, 6, 1, 12, 34, 56⟩⟩

/-- The record the second sample triplet parses to. -/
def entryB : ChangelogEntry :=
  ⟨⟨2015, 6, 2, 1, 2, 3⟩, "update", "notes.txt", "file", 600, 1000, 100, 0,
   ⟨2015, 6, 2, 1, 2, 3⟩, ⟨2015, 6, 1, 12, 34, 56⟩⟩

/-- Seven output lines: two valid triplets followed by one trailing blank
line, the shape the external tool commonly emits. -/
def sampleLines : List String :=
  [lineA1, lineA2, lineA3, lineB1, lineB2, lineB3, ""]

/-- A sample target name holding the other-kind quote (a single quote,
while the triplet uses double quotes), embedded whitespace and a Unicode
letter. -/
def fnameC2 : String :=
  String.mk ['i', 't', squote, 's', ' ', 'ü', '.', 'p', 'd', 'f']

/-- A first line whose day of month, 99, matches the digit run of the
grammar but is not a valid calendar day. -/
def lineBadTime1 : String := "Mon Jun 99 12:34:56 2015: add u\"f.txt\""

/-- Nine output lines whose middle triplet is malformed while the first and
last triplets are valid. -/
def sampleLinesBad : List String :=
  [lineA1, lineA2, lineA3, "not a changelog line", lineA2, lineA3,
   lineB1, lineB2, lineB3]


/- ===== Theorems ===== -/

/-- C1: last_nonzero scans the record sequence from the last (most recent)
record toward the first (oldest) and returns the first record encountered
whose size is not 0: appending a record x makes x the scan result exactly
when x has nonzero size, the empty history yields none, and on the
chronological sizes [100, 0, 50, 0, 0] the record of size 50 is returned. -/
theorem C1_last_nonzero_reverse_scan :
    (∀ (l : List ChangelogEntry) (x : ChangelogEntry),
      last_nonzero (l ++ [x]) =
        if x.size ≠ 0 then some x else last_nonzero l) ∧
    last_nonzero [] = none ∧
    last_nonzero historyC1 = some (entryOfSize 50 "f") := by
  refine ⟨?_, rfl, by decide⟩
  intro l x
  by_cases h : x.size ≠ 0 <;>
    simp [last_nonzero, List.find?, h]

/-- C6: on a record list containing no record of nonzero size, including the
empty list, last_nonzero returns none, the ordinary absent result of an
Option, not an error value of the PyError type used for parse failures. -/
theorem C6_last_nonzero_absent (l : List ChangelogEntry)
    (h : ∀ e ∈ l, e.size = 0) : last_nonzero l = none := by
  simp only [last_nonzero, List.find?_eq_none, List.mem_reverse]
  intro e he
  simp [h e he]

/-- Witness for C6 at the all-zero history of sizes [0, 0, 0] and at the
empty history. -/
theorem C6_last_nonzero_absent_witness :
    (∀ e ∈ [entryOfSize 0 "f", entryOfSize 0 "f", entryOfSize 0 "f"],
        e.size = 0) ∧
    last_nonzero [entryOfSize 0 "f", entryOfSize 0 "f", entryOfSize 0 "f"] =
      none ∧
    last_nonzero [] = none :=
  ⟨by decide,
   C6_last_nonzero_absent _ (by decide),
   C6_last_nonzero_absent [] (by decide)⟩

/-- C7: filtering records by a target name keeps exactly the records whose
target is equal, character for character, to the name, preserving relative
order (the result is a sublist of the input), and in particular a record
for a.txt.bak, or one differing only in letter case, is not kept when
filtering by a.txt. -/
theorem C7_filter_by_name_exact :
    (∀ (l : List ChangelogEntry) (name : String),
      (filter_by_name l name).Sublist l ∧
      ∀ e, e ∈ filter_by_name l name ↔ e ∈ l ∧ e.target = name) ∧
    filter_by_name
      [entryOfSize 1 "a.txt", entryOfSize 2 "a.txt.bak", entryOfSize 3 "A.txt"]
      "a.txt" = [entryOfSize 1 "a.txt"] := by
  refine ⟨fun l name => ⟨List.filter_sublist l, fun e => ?_⟩, by decide⟩
  simp [filter_by_name]

theorem sliceStep_nil (n : Nat) : sliceStep ([] : List α) n = [] := by
  simp [sliceStep]

theorem sliceStep_cons (x : α) (xs : List α) (n : Nat) :
    sliceStep (x :: xs) n = x :: sliceStep (xs.drop (n - 1)) n := by
  simp [sliceStep]

theorem pySlice_eq_nil {l : List α} {i : Nat} (h : l.length ≤ i) (n : Nat) :
    pySlice l i n = [] := by
  unfold pySlice
  rw [List.drop_eq_nil_of_le h, sliceStep_nil]

theorem tail_pySlice {n : Nat} (hn : 0 < n) (l : List α) (i : Nat) :
    (pySlice l i n).tail = pySlice (l.drop n) i n := by
  unfold pySlice
  rw [List.drop_drop]
  cases h : l.drop i with
  | nil =>
    have hl : l.length ≤ i := by
      by_contra hc
      exact absurd h (by simp [List.drop_eq_nil_iff]; omega)
    rw [List.drop_eq_nil_of_le (by omega), sliceStep_nil]
    rfl
  | cons x xs =>
    have hxs : xs = l.drop (i + 1) := by
      have h2 := List.tail_drop l i
      rw [h] at h2
      simpa using h2
    rw [sliceStep_cons, List.tail_cons, hxs, List.drop_drop]
    congr 2
    omega

theorem pySlice_head_cons {l : List α} {i n : Nat} (hi : i < l.length)
    (hn : 0 < n) :
    pySlice l i n = l.get ⟨i, hi⟩ :: pySlice (l.drop n) i n := by
  have ht := tail_pySlice hn l i
  unfold pySlice at ht ⊢
  rw [List.drop_eq_getElem_cons hi, sliceStep_cons]
  rw [List.drop_eq_getElem_cons hi, sliceStep_cons, List.tail_cons] at ht
  rw [ht]
  simp [List.get_eq_getElem]

theorem heads?_cols_some {n : Nat} (hn : 0 < n) (k : Nat) :
    ∀ (s : Nat) (l : List α), s + k ≤ l.length →
      heads? ((List.range' s k).map (fun i => pySlice l i n)) =
        some ((l.drop s).take k) := by
  induction k with
  | zero => intro s l _; simp [heads?]
  | succ k ih =>
    intro s l h
    have hs : s < l.length := by omega
    rw [List.range'_succ, List.map_cons, pySlice_head_cons hs hn]
    show (heads? _).map _ = _
    rw [ih (s + 1) l (by omega)]
    rw [List.drop_eq_getElem_cons hs, List.take_succ_cons]
    simp [List.get_eq_getElem]

theorem heads?_cols_none {n : Nat} (hn : 0 < n) (k : Nat) :
    ∀ (s : Nat) (l : List α), s ≤ l.length → l.length < s + k →
      heads? ((List.range' s k).map (fun i => pySlice l i n)) = none := by
  induction k with
  | zero => intro s l h1 h2; omega
  | succ k ih =>
    intro s l h1 h2
    rw [List.range'_succ, List.map_cons]
    by_cases hs : s < l.length
    · rw [pySlice_head_cons hs hn]
      show (heads? _).map _ = _
      rw [ih (s + 1) l (by omega) (by omega)]
      rfl
    · have : pySlice l s n = [] := pySlice_eq_nil (by omega) n
      rw [this]
      rfl

theorem zipStar_nil : zipStar ([] : List (List α)) = [] := rfl

theorem zipStar_of_heads?_none {cols : List (List α)}
    (h : heads? cols = none) : zipStar cols = [] := by
  unfold zipStar
  cases hf : (cols.headD []).length with
  | zero => rfl
  | succ m =>
    cases cols with
    | nil => simp [heads?] at h
    | cons c rest => simp [zipStarAux, h]

theorem zipStar_cons_of_heads? {cols : List (List α)} {hd : List α}
    (hne : cols ≠ []) (h : heads? cols = some hd) :
    zipStar cols = hd :: zipStar (cols.map List.tail) := by
  obtain ⟨c, rest, rfl⟩ := List.exists_cons_of_ne_nil hne
  cases c with
  | nil => simp [heads?] at h
  | cons x xs =>
    show zipStarAux (xs.length + 1) _ = _
    rw [zipStarAux]
    simp only [List.isEmpty_cons, h]
    rfl

theorem n_tuples_step {n : Nat} (hn : 0 < n) (l : List α) :
    n_tuples l n =
      if n ≤ l.length then l.take n :: n_tuples (l.drop n) n else [] := by
  unfold n_tuples
  rw [List.range_eq_range']
  by_cases h : n ≤ l.length
  · rw [if_pos h]
    have hh := heads?_cols_some (α := α) hn n 0 l (by omega)
    rw [List.drop_zero] at hh
    have hne : (List.range' 0 n).map (fun i => pySlice l i n) ≠ [] := by
      simp only [ne_eq, List.map_eq_nil_iff, List.range'_eq_nil]
      omega
    rw [zipStar_cons_of_heads? hne hh]
    congr 1
    rw [List.map_map]
    exact congrArg zipStar (List.map_congr_left (fun i _ => by
      simp only [Function.comp_apply]
      exact tail_pySlice hn l i))
  · rw [if_neg h]
    exact zipStar_of_heads?_none
      (heads?_cols_none hn n 0 l (by omega) (by omega))

theorem n_tuples_eq_chunksSpec {n : Nat} (hn : 0 < n) :
    ∀ (len : Nat) (l : List α), l.length ≤ len →
      n_tuples l n = chunksSpec l n := by
  intro len
  induction len with
  | zero =>
    intro l hl
    have hnil : l = [] := List.eq_nil_of_length_eq_zero (by omega)
    subst hnil
    rw [n_tuples_step hn]
    simp only [chunksSpec, List.length_nil, Nat.zero_div, List.range_zero,
      List.map_nil]
    rw [if_neg (by omega)]
  | succ m ih =>
    intro l hl
    rw [n_tuples_step hn]
    by_cases h : n ≤ l.length
    · rw [if_pos h]
      rw [ih (l.drop n) (by simp [List.length_drop]; omega)]
      unfold chunksSpec
      rw [List.length_drop]
      rw [show l.length / n = (l.length - n) / n + 1 from Nat.div_eq_sub_div hn h]
      rw [List.range_succ_eq_map, List.map_cons]
      congr 1
      · simp
      · rw [List.map_map]
        refine List.map_congr_left (fun j _ => ?_)
        simp only [Function.comp_apply]
        rw [List.drop_drop]
        congr 2
        rw [Nat.succ_mul]
        omega
    · rw [if_neg h]
      unfold chunksSpec
      rw [Nat.div_eq_of_lt (by omega)]
      simp

/-- C10: for every list l and every n at least 1, n_tuples, implemented as
zip over the n stride-n slices of l, agrees with naive consecutive
chunking dropping the remainder: it yields exactly floor of len(l) by n
tuples, and the j-th tuple (zero-indexed) is the consecutive chunk of n
elements of l starting at index j times n. -/
theorem C10_n_tuples_refines_chunking {α : Type} (l : List α) (n : Nat)
    (hn : 1 ≤ n) :
    n_tuples l n = chunksSpec l n ∧
    (n_tuples l n).length = l.length / n ∧
    ∀ j, j < l.length / n →
      (n_tuples l n)[j]? = some ((l.drop (j * n)).take n) := by
  have he := n_tuples_eq_chunksSpec hn l.length l le_rfl
  refine ⟨he, ?_, ?_⟩
  · rw [he]
    simp [chunksSpec]
  · intro j hj
    rw [he]
    simp [chunksSpec, List.getElem?_map, List.getElem?_range hj]

/-- Witness for C10 at the seven-element list 1..7 with n = 3, where the
two tuples are the chunks (1,2,3) and (4,5,6) and the seventh element is
the dropped remainder. -/
theorem C10_n_tuples_refines_chunking_witness :
    1 ≤ 3 ∧
    (n_tuples [1, 2, 3, 4, 5, 6, 7] 3 = chunksSpec [1, 2, 3, 4, 5, 6, 7] 3 ∧
     (n_tuples [1, 2, 3, 4, 5, 6, 7] 3).length =
       ([1, 2, 3, 4, 5, 6, 7] : List Nat).length / 3 ∧
     ∀ j, j < ([1, 2, 3, 4, 5, 6, 7] : List Nat).length / 3 →
       (n_tuples [1, 2, 3, 4, 5, 6, 7] 3)[j]? =
         some (([1, 2, 3, 4, 5, 6, 7].drop (j * 3)).take 3)) :=
  ⟨by decide, C10_n_tuples_refines_chunking [1, 2, 3, 4, 5, 6, 7] 3 (by decide)⟩

theorem mapM_ok_of_forall₂ {ε β γ : Type} (f : β → Except ε γ)
    {ts : List β} {es : List γ}
    (h : List.Forall₂ (fun t e => f t = Except.ok e) ts es) :
    ts.mapM f = Except.ok es := by
  induction h with
  | nil => rfl
  | cons h1 _ ih => rw [List.mapM_cons, h1, ih]; rfl

theorem mapM_error_of_prefix {ε β γ : Type} (f : β → Except ε γ) :
    ∀ (ts1 : List β) (t : β) (ts2 : List β) (err : ε),
      (∀ t' ∈ ts1, ∃ e, f t' = Except.ok e) → f t = Except.error err →
      (ts1 ++ t :: ts2).mapM f = Except.error err := by
  intro ts1
  induction ts1 with
  | nil =>
    intro t ts2 err _ hf
    rw [List.nil_append, List.mapM_cons, hf]
    rfl
  | cons a as ih =>
    intro t ts2 err hok hf
    obtain ⟨e, he⟩ := hok a (by simp)
    rw [List.cons_append, List.mapM_cons, he,
      ih t ts2 err (fun t' ht' => hok t' (by simp [ht'])) hf]
    rfl

/-- C3: on an input of 3k + r lines with r less than 3, whose k consecutive
grouped triplets each parse to a record, the batch parse parse_stream
succeeds with exactly those k records in their original order, and the
trailing r lines are silently discarded without error. -/
theorem C3_parse_stream_triplet_grouping (lines : List String) (k r : Nat)
    (es : List ChangelogEntry)
    (hlen : lines.length = 3 * k + r) (hr : r < 3)
    (hok : List.Forall₂ (fun t e => parseChunk t = Except.ok e)
      (chunksSpec lines 3) es) :
    parse_stream lines = Except.ok es ∧ es.length = k := by
  have hchunks : n_tuples lines 3 = chunksSpec lines 3 :=
    n_tuples_eq_chunksSpec (by omega) lines.length lines le_rfl
  constructor
  · unfold parse_stream
    rw [hchunks]
    exact mapM_ok_of_forall₂ _ hok
  · have h1 := List.Forall₂.length_eq hok
    have h2 : (chunksSpec lines 3).length = k := by
      simp only [chunksSpec, List.length_map, List.length_range]
      rw [hlen, Nat.mul_add_div (by omega), Nat.div_eq_of_lt hr]
      omega
    omega

/-- Witness for C3 at seven concrete lines: two valid triplets and one
trailing blank line; the parse returns exactly the two records in order. -/
theorem C3_parse_stream_triplet_grouping_witness :
    (sampleLines.length = 3 * 2 + 1 ∧ 1 < 3 ∧
     List.Forall₂ (fun t e => parseChunk t = Except.ok e)
       (chunksSpec sampleLines 3) [entryA, entryB]) ∧
    parse_stream sampleLines = Except.ok [entryA, entryB] ∧
    ([entryA, entryB] : List ChangelogEntry).length = 2 := by
  have hf : List.Forall₂ (fun t e => parseChunk t = Except.ok e)
      (chunksSpec sampleLines 3) [entryA, entryB] := by
    rw [show chunksSpec sampleLines 3 =
        [[lineA1, lineA2, lineA3], [lineB1, lineB2, lineB3]] from rfl]
    exact List.Forall₂.cons rfl (List.Forall₂.cons rfl List.Forall₂.nil)
  exact ⟨⟨rfl, by omega, hf⟩,
    C3_parse_stream_triplet_grouping sampleLines 2 1 [entryA, entryB] rfl
      (by omega) hf⟩

/-- C4: if the grouped triplets of the input split as some valid triplets,
then a malformed triplet raising an error, then anything, the batch parse
propagates exactly that error and produces no records at all, however many
valid triplets precede or follow the malformed one. -/
theorem C4_parse_stream_fatal_on_first_bad (lines : List String)
    (ts1 ts2 : List (List String)) (t : List String) (err : PyError)
    (hsplit : chunksSpec lines 3 = ts1 ++ t :: ts2)
    (hok : ∀ t' ∈ ts1, ∃ e, parseChunk t' = Except.ok e)
    (hbad : parseChunk t = Except.error err) :
    parse_stream lines = Except.error err := by
  unfold parse_stream
  rw [n_tuples_eq_chunksSpec (by omega) lines.length lines le_rfl, hsplit]
  exact mapM_error_of_prefix _ ts1 t ts2 err hok hbad

/-- Witness for C4 at nine concrete lines: a valid triplet, then a triplet
whose first line is garbage, then another valid triplet; the batch parse
returns the ParseError of the malformed triplet and no records. -/
theorem C4_parse_stream_fatal_on_first_bad_witness :
    (chunksSpec sampleLinesBad 3 =
      [[lineA1, lineA2, lineA3]] ++
        ["not a changelog line", lineA2, lineA3] ::
          [[lineB1, lineB2, lineB3]] ∧
     (∀ t' ∈ [[lineA1, lineA2, lineA3]],
        ∃ e, parseChunk t' = Except.ok e) ∧
     parseChunk ["not a changelog line", lineA2, lineA3] =
       Except.error (PyError.parseError "SpiderOak output matched incorrectly.") ∧
     parseChunk [lineB1, lineB2, lineB3] = Except.ok entryB) ∧
    parse_stream sampleLinesBad =
      Except.error (PyError.parseError "SpiderOak output matched incorrectly.") := by
  refine ⟨⟨rfl, ?_, rfl, rfl⟩, ?_⟩
  · intro t' ht'
    simp only [List.mem_singleton] at ht'
    subst ht'
    exact ⟨entryA, rfl⟩
  · exact C4_parse_stream_fatal_on_first_bad sampleLinesBad
      [[lineA1, lineA2, lineA3]] [[lineB1, lineB2, lineB3]]
      ["not a changelog line", lineA2, lineA3]
      (PyError.parseError "SpiderOak output matched incorrectly.") rfl
      (fun t' ht' => by
        simp only [List.mem_singleton] at ht'
        subst ht'
        exact ⟨entryA, rfl⟩) rfl

theorem takeWhile_dropWhile_append (p : Char → Bool) (xs ys : List Char)
    (hx : ∀ x ∈ xs, p x = true)
    (hy : ∀ y, ys.head? = some y → p y = false) :
    (xs ++ ys).takeWhile p = xs ∧ (xs ++ ys).dropWhile p = ys := by
  induction xs with
  | nil =>
    simp only [List.nil_append]
    cases ys with
    | nil => simp
    | cons y ys' =>
      have hpy := hy y rfl
      simp [List.takeWhile_cons, List.dropWhile_cons, hpy]
  | cons x xs' ih =>
    have hpx := hx x (by simp)
    have := ih (fun z hz => hx z (by simp [hz]))
    simp [List.takeWhile_cons, List.dropWhile_cons, hpx, this.1, this.2]

theorem takeSome_append (p : Char → Bool) (xs ys : List Char) (hne : xs ≠ [])
    (hx : ∀ x ∈ xs, p x = true)
    (hy : ∀ y, ys.head? = some y → p y = false) :
    takeSome p (xs ++ ys) = some (xs, ys) := by
  cases xs with
  | nil => exact absurd rfl hne
  | cons x xs' =>
    have hpx : p x = true := hx x (by simp)
    obtain ⟨h1, h2⟩ :=
      takeWhile_dropWhile_append p xs' ys (fun z hz => hx z (by simp [hz])) hy
    simp only [List.cons_append, takeSome, hpx, if_true, h1, h2]

theorem takeExact_append (p : Char → Bool) (xs ys : List Char)
    (hx : ∀ x ∈ xs, p x = true) :
    takeExact xs.length p (xs ++ ys) = some (xs, ys) := by
  induction xs with
  | nil => rfl
  | cons x xs' ih =>
    have hpx := hx x (by simp)
    simp only [List.length_cons, List.cons_append, takeExact, hpx, if_true]
    rw [show xs'.append ys = xs' ++ ys from rfl,
      ih (fun z hz => hx z (by simp [hz]))]
    rfl

theorem expectChar_cons (c : Char) (r : List Char) :
    expectChar c (c :: r) = some r := by
  simp [expectChar]

theorem expectStr_append (s r : List Char) :
    expectStr s (s ++ r) = some r := by
  induction s with
  | nil => rfl
  | cons c cs ih => simp [expectStr, expectChar_cons, ih]

theorem word_not_space {c : Char} (h : isWordChar c = true) :
    isSpaceChar c = false := by
  by_contra hc
  have hs : isSpaceChar c = true := by
    cases hcs : isSpaceChar c
    · exact absurd hcs hc
    · rfl
  simp only [isSpaceChar, Bool.or_eq_true, decide_eq_true_eq] at hs
  rcases hs with ((((h1 | h1) | h1) | h1) | h1) | h1 <;>
    (subst h1; exact absurd h (by decide))

theorem digit_not_space {c : Char} (h : isDigitChar c = true) :
    isSpaceChar c = false := by
  by_contra hc
  have hs : isSpaceChar c = true := by
    cases hcs : isSpaceChar c
    · exact absurd hcs hc
    · rfl
  simp only [isSpaceChar, Bool.or_eq_true, decide_eq_true_eq] at hs
  rcases hs with ((((h1 | h1) | h1) | h1) | h1) | h1 <;>
    (subst h1; exact absurd h (by decide))

theorem digitChar_isDigit {d : Nat} (h : d < 10) :
    isDigitChar (digitChar d) = true := by
  interval_cases d <;> decide

theorem digitVal_digitChar {d : Nat} (h : d < 10) :
    digitVal (digitChar d) = d := by
  interval_cases d <;> decide

theorem natStr_zero : (natStr 0).data = [digitChar 0] := by decide

theorem natStr_data_of_pos {n : Nat} (h : 0 < n) :
    (natStr n).data = ((Nat.digits 10 n).reverse).map digitChar := by
  unfold natStr
  rw [if_neg (by omega)]

theorem natStr_all_digits (n : Nat) :
    ∀ c ∈ (natStr n).data, isDigitChar c = true := by
  rcases Nat.eq_zero_or_pos n with h | h
  · subst h
    rw [natStr_zero]
    intro c hc
    simp only [List.mem_singleton] at hc
    subst hc
    decide
  · rw [natStr_data_of_pos h]
    intro c hc
    simp only [List.mem_map, List.mem_reverse] at hc
    obtain ⟨d, hd, rfl⟩ := hc
    exact digitChar_isDigit (Nat.digits_lt_base (by omega) hd)

theorem natStr_ne_nil (n : Nat) : (natStr n).data ≠ [] := by
  rcases Nat.eq_zero_or_pos n with h | h
  · subst h; rw [natStr_zero]; simp
  · rw [natStr_data_of_pos h]
    simp only [ne_eq, List.map_eq_nil_iff, List.reverse_eq_nil_iff]
    exact Nat.digits_ne_nil_iff_ne_zero.mpr (by omega)

theorem parseVal_aux (ds : List Nat) (hd : ∀ d ∈ ds, d < 10) :
    ∀ acc : Nat,
      List.foldl (fun a c => 10 * a + digitVal c) acc (ds.reverse.map digitChar) =
        acc * 10 ^ ds.length + Nat.ofDigits 10 ds := by
  induction ds with
  | nil => intro acc; simp [Nat.ofDigits_nil]
  | cons d tl ih =>
    intro acc
    rw [List.reverse_cons, List.map_append, List.foldl_append]
    rw [ih (fun z hz => hd z (by simp [hz])) acc]
    simp only [List.map_cons, List.map_nil, List.foldl_cons, List.foldl_nil]
    rw [digitVal_digitChar (hd d (by simp))]
    rw [Nat.ofDigits_cons]
    simp only [List.length_cons]
    ring

theorem parseVal_natStr (n : Nat) : parseVal (natStr n).data = n := by
  rcases Nat.eq_zero_or_pos n with h | h
  · subst h; decide
  · rw [natStr_data_of_pos h]
    unfold parseVal
    rw [parseVal_aux (Nat.digits 10 n) (fun d hd => Nat.digits_lt_base (by omega) hd) 0]
    simp [Nat.ofDigits_digits]

theorem natStr_one_digit {n : Nat} (h : n ≤ 9) :
    (natStr n).data = [digitChar n] := by
  rcases Nat.eq_zero_or_pos n with h0 | h0
  · subst h0; exact natStr_zero
  · rw [natStr_data_of_pos h0]
    rw [Nat.digits_def' (by omega : (1:Nat) < 10) h0]
    rw [Nat.mod_eq_of_lt (by omega), Nat.div_eq_of_lt (by omega)]
    simp

theorem natStr_two_digit {n : Nat} (h1 : 10 ≤ n) (h2 : n ≤ 99) :
    (natStr n).data = [digitChar (n / 10), digitChar (n % 10)] := by
  have hq1 : 0 < n / 10 := Nat.div_pos (by omega) (by omega)
  have hq2 : n / 10 < 10 := by omega
  rw [natStr_data_of_pos (by omega)]
  rw [Nat.digits_def' (by omega : (1:Nat) < 10) (by omega : 0 < n)]
  rw [Nat.digits_def' (by omega : (1:Nat) < 10) hq1]
  rw [Nat.mod_eq_of_lt hq2, Nat.div_eq_of_lt hq2]
  simp

theorem natStr_len4 {n : Nat} (h1 : 1000 ≤ n) (h2 : n ≤ 9999) :
    (natStr n).data.length = 4 := by
  rw [natStr_data_of_pos (by omega)]
  rw [List.length_map, List.length_reverse]
  rw [Nat.digits_len 10 n (by omega) (by omega)]
  rw [show Nat.log 10 n = 3 from
    Nat.log_eq_of_pow_le_of_lt_pow (by norm_num; omega) (by norm_num; omega)]

theorem pad2_data {n : Nat} (h : n ≤ 99) :
    (pad2 n).data = [digitChar (n / 10), digitChar (n % 10)] := by
  unfold pad2
  by_cases h10 : n < 10
  · rw [if_pos h10]
    rw [String.data_append, natStr_one_digit (by omega)]
    rw [Nat.div_eq_of_lt h10, Nat.mod_eq_of_lt h10]
    rfl
  · rw [if_neg h10]
    exact natStr_two_digit (by omega) h

theorem parseVal_two_digits {a b : Nat} (ha : a < 10) (hb : b < 10) :
    parseVal [digitChar a, digitChar b] = 10 * a + b := by
  unfold parseVal
  simp only [List.foldl_cons, List.foldl_nil]
  rw [digitVal_digitChar ha, digitVal_digitChar hb]
  ring

theorem alpha_not_space {c : Char} (h : isAlphaChar c = true) :
    isSpaceChar c = false := by
  by_contra hc
  have hs : isSpaceChar c = true := by
    cases hcs : isSpaceChar c
    · exact absurd hcs hc
    · rfl
  simp only [isSpaceChar, Bool.or_eq_true, decide_eq_true_eq] at hs
  rcases hs with ((((h1 | h1) | h1) | h1) | h1) | h1 <;>
    (subst h1; exact absurd h (by decide))

theorem space_not_digit {c : Char} (h : isSpaceChar c = true) :
    isDigitChar c = false := by
  simp only [isSpaceChar, Bool.or_eq_true, decide_eq_true_eq] at h
  rcases h with ((((h1 | h1) | h1) | h1) | h1) | h1 <;>
    (subst h1; decide)

theorem head_not (p q : Char → Bool) (imp : ∀ c, q c = true → p c = false)
    (l r : List Char) (hne : l ≠ []) (hall : ∀ c ∈ l, q c = true) :
    ∀ y, (l ++ r).head? = some y → p y = false := by
  intro y hy
  cases l with
  | nil => exact absurd rfl hne
  | cons c cs =>
    simp only [List.cons_append, List.head?_cons, Option.some.injEq] at hy
    subst hy
    exact imp c (hall c (by simp))

theorem takeSome_space_single (T : List Char)
    (hT : ∀ y, T.head? = some y → isSpaceChar y = false) :
    takeSome isSpaceChar (' ' :: T) = some ([' '], T) :=
  takeSome_append isSpaceChar [' '] T (by simp) (by decide) hT

theorem takeExact3_append (p : Char → Bool) (xs ys : List Char)
    (h3 : xs.length = 3) (hx : ∀ x ∈ xs, p x = true) :
    takeExact 3 p (xs ++ ys) = some (xs, ys) := by
  rw [← h3]
  exact takeExact_append p xs ys hx

theorem takeExact2_append (p : Char → Bool) (xs ys : List Char)
    (h2 : xs.length = 2) (hx : ∀ x ∈ xs, p x = true) :
    takeExact 2 p (xs ++ ys) = some (xs, ys) := by
  rw [← h2]
  exact takeExact_append p xs ys hx

theorem takeExact4_append (p : Char → Bool) (xs ys : List Char)
    (h4 : xs.length = 4) (hx : ∀ x ∈ xs, p x = true) :
    takeExact 4 p (xs ++ ys) = some (xs, ys) := by
  rw [← h4]
  exact takeExact_append p xs ys hx

theorem weekday_shape {www : String} (h : www ∈ weekdayAbbrevs) :
    www.data.length = 3 ∧ ∀ c ∈ www.data, isAlphaChar c = true := by
  fin_cases h <;> exact ⟨rfl, by decide⟩

theorem month_shape {m : Nat} (h1 : 1 ≤ m) (h2 : m ≤ 12) :
    (monthAbbrev m).data.length = 3 ∧
      ∀ c ∈ (monthAbbrev m).data, isAlphaChar c = true := by
  interval_cases m <;> exact ⟨rfl, by decide⟩

theorem pad2_shape {n : Nat} (h : n ≤ 99) :
    (pad2 n).data.length = 2 ∧ ∀ c ∈ (pad2 n).data, isDigitChar c = true := by
  rw [pad2_data h]
  refine ⟨rfl, ?_⟩
  intro c hc
  simp only [List.mem_cons, List.mem_singleton, List.not_mem_nil, or_false] at hc
  rcases hc with rfl | rfl
  · exact digitChar_isDigit (by omega)
  · exact digitChar_isDigit (by omega)

theorem valid_fields {dt : DateTime} (h : dt.valid = true) :
    1 ≤ dt.month ∧ dt.month ≤ 12 ∧ 1 ≤ dt.day ∧
      dt.day ≤ daysInMonth dt.year dt.month ∧ dt.hour ≤ 23 ∧
      dt.minute ≤ 59 ∧ dt.second ≤ 59 ∧ 1000 ≤ dt.year ∧ dt.year ≤ 9999 := by
  simp only [DateTime.valid, Bool.and_eq_true, decide_eq_true_eq] at h
  tauto

theorem mkTimeStr_data (www : String) (dt : DateTime) :
    (mkTimeStr www dt).data =
      www.data ++ [' '] ++ (monthAbbrev dt.month).data ++ [' '] ++
        (natStr dt.day).data ++ [' '] ++ (pad2 dt.hour).data ++ [':'] ++
        (pad2 dt.minute).data ++ [':'] ++ (pad2 dt.second).data ++ [' '] ++
        (natStr dt.year).data := by
  simp only [mkTimeStr, String.data_append]

theorem matchTime_mkTimeStr (www : String) (dt : DateTime) (rest : List Char)
    (hw : www ∈ weekdayAbbrevs) (hdt : dt.valid = true) :
    matchTime ((mkTimeStr www dt).data ++ rest) =
      some ((mkTimeStr www dt).data, rest) := by
  obtain ⟨hwl, hwa⟩ := weekday_shape hw
  obtain ⟨hm1, hm2, hd1, hd2, hh, hmi, hs, hy1, hy2⟩ := valid_fields hdt
  obtain ⟨hml, hma⟩ := month_shape hm1 hm2
  have hdmax : dt.day ≤ 99 := by
    have h31 : daysInMonth dt.year dt.month ≤ 31 := by
      unfold daysInMonth
      split
      · split <;> omega
      · split <;> omega
    omega
  obtain ⟨hhl, hhd⟩ := pad2_shape (show dt.hour ≤ 99 by omega)
  obtain ⟨hil, hid⟩ := pad2_shape (show dt.minute ≤ 99 by omega)
  obtain ⟨hsl, hsd⟩ := pad2_shape (show dt.second ≤ 99 by omega)
  have hdne := natStr_ne_nil dt.day
  have hdd := natStr_all_digits dt.day
  have hmne : (monthAbbrev dt.month).data ≠ [] := by
    intro hx
    rw [hx] at hml
    exact absurd hml (by decide)
  have hhne : (pad2 dt.hour).data ≠ [] := by
    intro hx
    rw [hx] at hhl
    exact absurd hhl (by decide)
  rw [mkTimeStr_data]
  simp only [List.append_assoc, List.cons_append, List.nil_append]
  set T6 := (natStr dt.year).data ++ rest with hT6
  set T5 := (pad2 dt.second).data ++ ' ' :: T6 with hT5
  set T4 := (pad2 dt.minute).data ++ ':' :: T5 with hT4
  set T3 := (pad2 dt.hour).data ++ ':' :: T4 with hT3
  set T2 := (natStr dt.day).data ++ ' ' :: T3 with hT2
  set T1 := (monthAbbrev dt.month).data ++ ' ' :: T2 with hT1
  have e1 : takeExact 3 isAlphaChar (www.data ++ ' ' :: T1) =
      some (www.data, ' ' :: T1) := takeExact3_append _ _ _ hwl hwa
  have e2 : takeSome isSpaceChar (' ' :: T1) = some ([' '], T1) :=
    takeSome_space_single T1 (by
      rw [hT1]
      exact head_not _ _ (fun c hc => alpha_not_space hc) _ _ hmne hma)
  have e3 : takeExact 3 isAlphaChar T1 =
      some ((monthAbbrev dt.month).data, ' ' :: T2) := by
    rw [hT1]
    exact takeExact3_append _ _ _ hml hma
  have e4 : takeSome isSpaceChar (' ' :: T2) = some ([' '], T2) :=
    takeSome_space_single T2 (by
      rw [hT2]
      exact head_not _ _ (fun c hc => digit_not_space hc) _ _ hdne hdd)
  have e5 : takeSome isDigitChar T2 =
      some ((natStr dt.day).data, ' ' :: T3) := by
    rw [hT2]
    refine takeSome_append _ _ _ hdne hdd ?_
    intro y hy
    simp only [List.head?_cons, Option.some.injEq] at hy
    subst hy
    decide
  have e6 : takeSome isSpaceChar (' ' :: T3) = some ([' '], T3) :=
    takeSome_space_single T3 (by
      rw [hT3]
      exact head_not _ _ (fun c hc => digit_not_space hc) _ _ hhne hhd)
  have e7 : takeExact 2 isDigitChar T3 =
      some ((pad2 dt.hour).data, ':' :: T4) := by
    rw [hT3]
    exact takeExact2_append _ _ _ hhl hhd
  have e8 : expectChar ':' (':' :: T4) = some T4 := expectChar_cons _ _
  have e9 : takeExact 2 isDigitChar T4 =
      some ((pad2 dt.minute).data, ':' :: T5) := by
    rw [hT4]
    exact takeExact2_append _ _ _ hil hid
  have e10 : expectChar ':' (':' :: T5) = some T5 := expectChar_cons _ _
  have e11 : takeExact 2 isDigitChar T5 =
      some ((pad2 dt.second).data, ' ' :: T6) := by
    rw [hT5]
    exact takeExact2_append _ _ _ hsl hsd
  have e12 : expectChar ' ' (' ' :: T6) = some T6 := expectChar_cons _ _
  have e13 : takeExact 4 isDigitChar T6 =
      some ((natStr dt.year).data, rest) := by
    rw [hT6]
    exact takeExact4_append _ _ _ (natStr_len4 hy1 hy2) (natStr_all_digits _)
  simp only [matchTime, e1, e2, e3, e4, e5, e6, e7, e8, e9, e10, e11, e12, e13]
  simp [List.append_assoc]

theorem matchAbbrev_weekday {www : String} (h : www ∈ weekdayAbbrevs)
    (r : List Char) :
    ∃ i, matchAbbrev weekdayAbbrevs (www.data ++ r) = some (i, r) := by
  fin_cases h <;> exact ⟨_, rfl⟩

theorem matchAbbrev_month {m : Nat} (h1 : 1 ≤ m) (h2 : m ≤ 12) (r : List Char) :
    matchAbbrev monthAbbrevs ((monthAbbrev m).data ++ r) = some (m - 1, r) := by
  interval_cases m <;> rfl

theorem parseNum2or1_pad2 (twoOk oneOk : Nat → Bool) {n : Nat} (h : n ≤ 99)
    (h2 : twoOk n = true) (r : List Char) :
    parseNum2or1 twoOk oneOk ((pad2 n).data ++ r) = some (n, r) := by
  rw [pad2_data h]
  have ha : n / 10 < 10 := by omega
  have hb : n % 10 < 10 := by omega
  show parseNum2or1 twoOk oneOk (digitChar (n / 10) :: digitChar (n % 10) :: r) = _
  simp only [parseNum2or1, digitChar_isDigit ha, digitChar_isDigit hb,
    digitVal_digitChar ha, digitVal_digitChar hb, Bool.true_and]
  rw [Nat.div_add_mod, h2]
  simp

theorem parseNum2or1_day {d : Nat} (h1 : 1 ≤ d) (h2 : d ≤ 31) (r : List Char)
    (hr : ∀ y, r.head? = some y → isDigitChar y = false) :
    parseNum2or1 (fun v => decide (1 ≤ v) && decide (v ≤ 31))
      (fun v => decide (1 ≤ v)) ((natStr d).data ++ r) = some (d, r) := by
  by_cases h10 : d ≤ 9
  · rw [natStr_one_digit h10]
    cases r with
    | nil =>
      show parseNum2or1 _ _ [digitChar d] = _
      simp only [parseNum2or1, digitChar_isDigit (show d < 10 by omega),
        digitVal_digitChar (show d < 10 by omega), Bool.true_and]
      simp [h1]
    | cons y r' =>
      have hy := hr y rfl
      show parseNum2or1 _ _ (digitChar d :: y :: r') = _
      simp only [parseNum2or1, digitChar_isDigit (show d < 10 by omega), hy,
        digitVal_digitChar (show d < 10 by omega), Bool.true_and,
        Bool.and_false, Bool.false_and]
      simp [h1]
  · rw [natStr_two_digit (by omega) (by omega)]
    have ha : d / 10 < 10 := by omega
    have hb : d % 10 < 10 := by omega
    show parseNum2or1 _ _ (digitChar (d / 10) :: digitChar (d % 10) :: r) = _
    simp only [parseNum2or1, digitChar_isDigit ha, digitChar_isDigit hb,
      digitVal_digitChar ha, digitVal_digitChar hb, Bool.true_and]
    rw [Nat.div_add_mod]
    simp [h1, h2]

theorem strptimeMatch_mkTimeStr (www : String) (dt : DateTime)
    (hw : www ∈ weekdayAbbrevs) (hdt : dt.valid = true) :
    strptimeMatch (mkTimeStr www dt).data = some dt := by
  obtain ⟨Y, Mo, D, H, Mi, S⟩ := dt
  obtain ⟨hm1, hm2, hd1, hd2, hh, hmi, hs, hy1, hy2⟩ := valid_fields hdt
  simp only at hm1 hm2 hd1 hd2 hh hmi hs hy1 hy2
  have hdmax : D ≤ 31 := by
    have h31 : daysInMonth Y Mo ≤ 31 := by
      unfold daysInMonth
      split
      · split <;> omega
      · split <;> omega
    omega
  obtain ⟨hml, hma⟩ := month_shape hm1 hm2
  obtain ⟨hhl, hhd⟩ := pad2_shape (show H ≤ 99 by omega)
  obtain ⟨hil, hid⟩ := pad2_shape (show Mi ≤ 99 by omega)
  obtain ⟨hsl, hsd⟩ := pad2_shape (show S ≤ 99 by omega)
  have hdne := natStr_ne_nil D
  have hdd := natStr_all_digits D
  have hmne : (monthAbbrev Mo).data ≠ [] := by
    intro hx
    rw [hx] at hml
    exact absurd hml (by decide)
  have hhne : (pad2 H).data ≠ [] := by
    intro hx
    rw [hx] at hhl
    exact absurd hhl (by decide)
  rw [mkTimeStr_data]
  simp only [List.append_assoc, List.cons_append, List.nil_append]
  set T6 := (natStr Y).data with hT6
  set T5 := (pad2 S).data ++ ' ' :: T6 with hT5
  set T4 := (pad2 Mi).data ++ ':' :: T5 with hT4
  set T3 := (pad2 H).data ++ ':' :: T4 with hT3
  set T2 := (natStr D).data ++ ' ' :: T3 with hT2
  set T1 := (monthAbbrev Mo).data ++ ' ' :: T2 with hT1
  obtain ⟨iw, f1⟩ := matchAbbrev_weekday hw (' ' :: T1)
  have f2 : takeSome isSpaceChar (' ' :: T1) = some ([' '], T1) :=
    takeSome_space_single T1 (by
      rw [hT1]
      exact head_not _ _ (fun c hc => alpha_not_space hc) _ _ hmne hma)
  have f3 : matchAbbrev monthAbbrevs T1 = some (Mo - 1, ' ' :: T2) := by
    rw [hT1]
    exact matchAbbrev_month hm1 hm2 _
  have f4 : takeSome isSpaceChar (' ' :: T2) = some ([' '], T2) :=
    takeSome_space_single T2 (by
      rw [hT2]
      exact head_not _ _ (fun c hc => digit_not_space hc) _ _ hdne hdd)
  have f5 : parseNum2or1 (fun v => decide (1 ≤ v) && decide (v ≤ 31))
      (fun v => decide (1 ≤ v)) T2 = some (D, ' ' :: T3) := by
    rw [hT2]
    refine parseNum2or1_day hd1 hdmax _ ?_
    intro y hy
    simp only [List.head?_cons, Option.some.injEq] at hy
    subst hy
    decide
  have f6 : takeSome isSpaceChar (' ' :: T3) = some ([' '], T3) :=
    takeSome_space_single T3 (by
      rw [hT3]
      exact head_not _ _ (fun c hc => digit_not_space hc) _ _ hhne hhd)
  have f7 : parseNum2or1 (fun v => decide (v ≤ 23)) (fun _ => true) T3 =
      some (H, ':' :: T4) := by
    rw [hT3]
    exact parseNum2or1_pad2 _ _ (by omega) (by simpa using hh) _
  have f8 : expectChar ':' (':' :: T4) = some T4 := expectChar_cons _ _
  have f9 : parseNum2or1 (fun v => decide (v ≤ 59)) (fun _ => true) T4 =
      some (Mi, ':' :: T5) := by
    rw [hT4]
    exact parseNum2or1_pad2 _ _ (by omega) (by simpa using hmi) _
  have f10 : expectChar ':' (':' :: T5) = some T5 := expectChar_cons _ _
  have f11 : parseNum2or1 (fun v => decide (v ≤ 61)) (fun _ => true) T5 =
      some (S, ' ' :: T6) := by
    rw [hT5]
    exact parseNum2or1_pad2 _ _ (by omega) (by simp; omega) _
  have f12 : takeSome isSpaceChar (' ' :: T6) = some ([' '], T6) :=
    takeSome_space_single T6 (by
      rw [hT6]
      intro y hy
      have hyd : isDigitChar y = true := by
        cases hnd : (natStr Y).data with
        | nil => rw [hnd] at hy; simp at hy
        | cons c cs =>
          rw [hnd] at hy
          simp only [List.head?_cons, Option.some.injEq] at hy
          subst hy
          exact natStr_all_digits Y c (by rw [hnd]; simp)
      exact digit_not_space hyd)
  have f13 : takeExact 4 isDigitChar T6 = some ((natStr Y).data, []) := by
    have h0 := takeExact4_append isDigitChar (natStr Y).data []
      (natStr_len4 hy1 hy2) (natStr_all_digits Y)
    rw [List.append_nil] at h0
    rw [hT6]
    exact h0
  simp only [strptimeMatch, f1, f2, f3, f4, f5, f6, f7, f8, f9, f10, f11, f12,
    f13, List.isEmpty_nil, if_true]
  rw [parseVal_natStr, Nat.sub_add_cancel hm1]

theorem strptime_mkTimeStr (www : String) (dt : DateTime)
    (hw : www ∈ weekdayAbbrevs) (hdt : dt.valid = true) :
    strptime (mkTimeStr www dt).data = Except.ok dt := by
  obtain ⟨hm1, hm2, hd1, hd2, hh, hmi, hs, hy1, hy2⟩ := valid_fields hdt
  unfold strptime
  rw [strptimeMatch_mkTimeStr www dt hw hdt]
  show (if dt.year = 0 then Except.error "year 0 is out of range"
    else if daysInMonth dt.year dt.month < dt.day then
      Except.error "day is out of range for month"
    else if 59 < dt.second then Except.error "second must be in 0..59"
    else Except.ok dt) = Except.ok dt
  rw [if_neg (by omega), if_neg (by omega), if_neg (by omega)]

theorem string_eta (s : String) : String.mk s.data = s := rfl

theorem wordString_fields {s : String} (h : isWordString s = true) :
    s.data ≠ [] ∧ ∀ c ∈ s.data, isWordChar c = true := by
  simp only [isWordString, Bool.and_eq_true, Bool.not_eq_true',
    List.all_eq_true] at h
  refine ⟨?_, h.2⟩
  intro hx
  have h1 := h.1
  rw [hx] at h1
  simp at h1

theorem mkLine1_data (ts action : String) (q1 q2 : Char) (fname : String) :
    (mkLine1 ts action q1 q2 fname).data =
      ts.data ++ [':', ' '] ++ action.data ++ [' ', 'u'] ++ [q1] ++
        fname.data ++ [q2] := by
  simp only [mkLine1, String.data_append]

theorem matchLine1_mkLine1 (www : String) (dt : DateTime) (action : String)
    (q1 q2 : Char) (fname : String)
    (hw : www ∈ weekdayAbbrevs) (hdt : dt.valid = true)
    (ha : isWordString action = true)
    (hq1 : q1 = squote ∨ q1 = '"') :
    matchLine1 (mkLine1 (mkTimeStr www dt) action q1 q2 fname).data =
      if q2 = q1 then some ((mkTimeStr www dt).data, action, q1, fname)
      else none := by
  obtain ⟨hane, hawd⟩ := wordString_fields ha
  rw [mkLine1_data]
  simp only [List.append_assoc, List.cons_append, List.nil_append]
  set R := fname.data ++ [q2] with hR
  have e1 := matchTime_mkTimeStr www dt
    (':' :: ' ' :: (action.data ++ ' ' :: 'u' :: q1 :: R)) hw hdt
  have e2 : expectChar ':'
      (':' :: ' ' :: (action.data ++ ' ' :: 'u' :: q1 :: R)) =
      some (' ' :: (action.data ++ ' ' :: 'u' :: q1 :: R)) :=
    expectChar_cons _ _
  have e3 : takeSome isSpaceChar
      (' ' :: (action.data ++ ' ' :: 'u' :: q1 :: R)) =
      some ([' '], action.data ++ ' ' :: 'u' :: q1 :: R) :=
    takeSome_space_single _
      (head_not _ _ (fun c hc => word_not_space hc) _ _ hane hawd)
  have e4 : takeSome isWordChar (action.data ++ ' ' :: 'u' :: q1 :: R) =
      some (action.data, ' ' :: 'u' :: q1 :: R) := by
    refine takeSome_append _ _ _ hane hawd ?_
    intro y hy
    simp only [List.head?_cons, Option.some.injEq] at hy
    subst hy
    decide
  have e5 : takeSome isSpaceChar (' ' :: 'u' :: q1 :: R) =
      some ([' '], 'u' :: q1 :: R) :=
    takeSome_space_single _ (by
      intro y hy
      simp only [List.head?_cons, Option.some.injEq] at hy
      subst hy
      decide)
  have e6 : expectChar 'u' ('u' :: q1 :: R) = some (q1 :: R) :=
    expectChar_cons _ _
  have hq1t : (q1 = squote || q1 = '"') = true := by
    rcases hq1 with rfl | rfl <;> decide
  have egl : R.getLast? = some q2 := by
    rw [hR]
    exact List.getLast?_concat _
  have edl : R.dropLast = fname.data := by
    rw [hR]
    exact List.dropLast_concat
  simp only [matchLine1, e1, e2, e3, e4, e5, e6, hq1t, if_true, egl, edl,
    string_eta]

theorem mkLine2_data (ty : String) (mode uid gid size : Nat) :
    (mkLine2 ty mode uid gid size).data =
      "type:".data ++ (ty.data ++ ([' '] ++ ("mode:".data ++
        ((natStr mode).data ++ ([' '] ++ ("uid:".data ++
        ((natStr uid).data ++ ([' '] ++ ("gid:".data ++
        ((natStr gid).data ++ ([' '] ++ ("size:".data ++
        (natStr size).data)))))))))))) := by
  simp only [mkLine2, String.data_append, List.append_assoc]
  rfl

theorem matchLine2_mkLine2 (ty : String) (mode uid gid size : Nat)
    (hty : isWordString ty = true) :
    matchLine2 (mkLine2 ty mode uid gid size).data =
      some (ty, mode, uid, gid, size) := by
  obtain ⟨htne, htwd⟩ := wordString_fields hty
  rw [mkLine2_data]
  set S4 := (natStr size).data with hS4
  set T4 := "size:".data ++ S4 with hT4
  set G4 := (natStr gid).data ++ ([' '] ++ T4) with hG4
  set T3 := "gid:".data ++ G4 with hT3
  set U4 := (natStr uid).data ++ ([' '] ++ T3) with hU4
  set T2 := "uid:".data ++ U4 with hT2
  set M4 := (natStr mode).data ++ ([' '] ++ T2) with hM4
  set T1 := "mode:".data ++ M4 with hT1
  set A4 := ty.data ++ ([' '] ++ T1) with hA4
  have hdrop : ("type:".data ++ A4).dropWhile isSpaceChar =
      "type:".data ++ A4 := by
    rw [show "type:".data ++ A4 = 't' :: ("ype:".data ++ A4) from rfl]
    rw [List.dropWhile_cons_of_neg (by decide)]
  have g1 : expectStr "type:".data ("type:".data ++ A4) = some A4 :=
    expectStr_append _ _
  have g2 : takeSome isWordChar A4 = some (ty.data, [' '] ++ T1) := by
    rw [hA4]
    refine takeSome_append _ _ _ htne htwd ?_
    intro y hy
    simp only [List.cons_append, List.head?_cons, Option.some.injEq] at hy
    subst hy
    decide
  have g3 : takeSome isSpaceChar ([' '] ++ T1) = some ([' '], T1) := by
    refine takeSome_append _ _ _ (by simp) (by decide) ?_
    intro y hy
    rw [hT1, show "mode:".data ++ M4 = 'm' :: ("ode:".data ++ M4) from rfl] at hy
    simp only [List.head?_cons, Option.some.injEq] at hy
    subst hy
    decide
  have g4 : expectStr "mode:".data T1 = some M4 := by
    rw [hT1]
    exact expectStr_append _ _
  have g5 : takeSome isDigitChar M4 = some ((natStr mode).data, [' '] ++ T2) := by
    rw [hM4]
    refine takeSome_append _ _ _ (natStr_ne_nil _) (natStr_all_digits _) ?_
    intro y hy
    simp only [List.cons_append, List.head?_cons, Option.some.injEq] at hy
    subst hy
    decide
  have g6 : takeSome isSpaceChar ([' '] ++ T2) = some ([' '], T2) := by
    refine takeSome_append _ _ _ (by simp) (by decide) ?_
    intro y hy
    rw [hT2, show "uid:".data ++ U4 = 'u' :: ("id:".data ++ U4) from rfl] at hy
    simp only [List.head?_cons, Option.some.injEq] at hy
    subst hy
    decide
  have g7 : expectStr "uid:".data T2 = some U4 := by
    rw [hT2]
    exact expectStr_append _ _
  have g8 : takeSome isDigitChar U4 = some ((natStr uid).data, [' '] ++ T3) := by
    rw [hU4]
    refine takeSome_append _ _ _ (natStr_ne_nil _) (natStr_all_digits _) ?_
    intro y hy
    simp only [List.cons_append, List.head?_cons, Option.some.injEq] at hy
    subst hy
    decide
  have g9 : takeSome isSpaceChar ([' '] ++ T3) = some ([' '], T3) := by
    refine takeSome_append _ _ _ (by simp) (by decide) ?_
    intro y hy
    rw [hT3, show "gid:".data ++ G4 = 'g' :: ("id:".data ++ G4) from rfl] at hy
    simp only [List.head?_cons, Option.some.injEq] at hy
    subst hy
    decide
  have g10 : expectStr "gid:".data T3 = some G4 := by
    rw [hT3]
    exact expectStr_append _ _
  have g11 : takeSome isDigitChar G4 = some ((natStr gid).data, [' '] ++ T4) := by
    rw [hG4]
    refine takeSome_append _ _ _ (natStr_ne_nil _) (natStr_all_digits _) ?_
    intro y hy
    simp only [List.cons_append, List.head?_cons, Option.some.injEq] at hy
    subst hy
    decide
  have g12 : takeSome isSpaceChar ([' '] ++ T4) = some ([' '], T4) := by
    refine takeSome_append _ _ _ (by simp) (by decide) ?_
    intro y hy
    rw [hT4, show "size:".data ++ S4 = 's' :: ("ize:".data ++ S4) from rfl] at hy
    simp only [List.head?_cons, Option.some.injEq] at hy
    subst hy
    decide
  have g13 : expectStr "size:".data T4 = some S4 := by
    rw [hT4]
    exact expectStr_append _ _
  have g14 : takeSome isDigitChar S4 = some ((natStr size).data, []) := by
    have h0 := takeSome_append isDigitChar (natStr size).data []
      (natStr_ne_nil _) (natStr_all_digits _) (by simp)
    rw [List.append_nil] at h0
    rw [hS4]
    exact h0
  simp only [matchLine2, hdrop, g1, g2, g3, g4, g5, g6, g7, g8, g9, g10, g11,
    g12, g13, g14, List.isEmpty_nil, if_true, string_eta, parseVal_natStr]

theorem mkLine3_data (mts cts : String) :
    (mkLine3 mts cts).data =
      "mtime:".data ++ (mts.data ++ ([' '] ++ ("ctime:".data ++ cts.data))) := by
  simp only [mkLine3, String.data_append, List.append_assoc]
  rfl

theorem matchLine3_mkLine3 (www2 www3 : String) (dt2 dt3 : DateTime)
    (hw2 : www2 ∈ weekdayAbbrevs) (hdt2 : dt2.valid = true)
    (hw3 : www3 ∈ weekdayAbbrevs) (hdt3 : dt3.valid = true) :
    matchLine3 (mkLine3 (mkTimeStr www2 dt2) (mkTimeStr www3 dt3)).data =
      some ((mkTimeStr www2 dt2).data, (mkTimeStr www3 dt3).data) := by
  rw [mkLine3_data]
  set C0 := (mkTimeStr www3 dt3).data with hC0
  set T1 := "ctime:".data ++ C0 with hT1
  set M0 := (mkTimeStr www2 dt2).data ++ ([' '] ++ T1) with hM0
  have hdrop : ("mtime:".data ++ M0).dropWhile isSpaceChar =
      "mtime:".data ++ M0 := by
    rw [show "mtime:".data ++ M0 = 'm' :: ("time:".data ++ M0) from rfl]
    rw [List.dropWhile_cons_of_neg (by decide)]
  have g1 : expectStr "mtime:".data ("mtime:".data ++ M0) = some M0 :=
    expectStr_append _ _
  have g2 : matchTime M0 = some ((mkTimeStr www2 dt2).data, [' '] ++ T1) := by
    rw [hM0]
    exact matchTime_mkTimeStr www2 dt2 _ hw2 hdt2
  have g3 : takeSome isSpaceChar ([' '] ++ T1) = some ([' '], T1) := by
    refine takeSome_append _ _ _ (by simp) (by decide) ?_
    intro y hy
    rw [hT1, show "ctime:".data ++ C0 = 'c' :: ("time:".data ++ C0) from rfl] at hy
    simp only [List.head?_cons, Option.some.injEq] at hy
    subst hy
    decide
  have g4 : expectStr "ctime:".data T1 = some C0 := by
    rw [hT1]
    exact expectStr_append _ _
  have g5 : matchTime C0 = some ((mkTimeStr www3 dt3).data, []) := by
    have h0 := matchTime_mkTimeStr www3 dt3 [] hw3 hdt3
    rw [List.append_nil] at h0
    rw [hC0]
    exact h0
  simp only [matchLine3, hdrop, g1, g2, g3, g4, g5, List.isEmpty_nil, if_true]

/-- C2: round-trip of the triplet grammar.  For every syntactically valid
triplet built from valid timestamps (weekday abbreviation plus a valid
calendar datetime with four-digit year), a nonempty word-character action
and entry type, either quote character, any newline-free target name
(which may hold the other-kind quote, whitespace and Unicode), and
arbitrary non-negative mode, uid, gid and size integers, parse succeeds
and every field of the resulting record equals exactly the value the
triplet was constructed from. -/
theorem C2_parse_round_trip (www1 www2 www3 : String) (dt1 dt2 dt3 : DateTime)
    (action : String) (q : Char) (fname : String) (ty : String)
    (mode uid gid size : Nat)
    (hw1 : www1 ∈ weekdayAbbrevs) (hw2 : www2 ∈ weekdayAbbrevs)
    (hw3 : www3 ∈ weekdayAbbrevs)
    (hd1 : dt1.valid = true) (hd2 : dt2.valid = true) (hd3 : dt3.valid = true)
    (ha : isWordString action = true) (hty : isWordString ty = true)
    (hq : q = squote ∨ q = '"') (hfn : '\n' ∉ fname.data) :
    ChangelogEntry.parse (mkLine1 (mkTimeStr www1 dt1) action q q fname)
        (mkLine2 ty mode uid gid size)
        (mkLine3 (mkTimeStr www2 dt2) (mkTimeStr www3 dt3)) =
      Except.ok ⟨dt1, action, fname, ty, mode, uid, gid, size, dt2, dt3⟩ := by
  have h1 := matchLine1_mkLine1 www1 dt1 action q q fname hw1 hd1 ha hq
  rw [if_pos rfl] at h1
  have h2 := matchLine2_mkLine2 ty mode uid gid size hty
  have h3 := matchLine3_mkLine3 www2 www3 dt2 dt3 hw2 hd2 hw3 hd3
  unfold ChangelogEntry.parse
  rw [h1, h2, h3]
  simp only [strptime_mkTimeStr www1 dt1 hw1 hd1,
    strptime_mkTimeStr www2 dt2 hw2 hd2, strptime_mkTimeStr www3 dt3 hw3 hd3]

/-- C5: a triplet whose first line opens the target name with one quote
character and closes it with the other (the name not ending in a closing
quote of the opening kind) raises ParseError, whatever the other two
lines hold. -/
theorem C5_mismatched_quote (www : String) (dt : DateTime)
    (action : String) (q1 q2 : Char) (fname : String) (b c : String)
    (hw : www ∈ weekdayAbbrevs) (hdt : dt.valid = true)
    (ha : isWordString action = true)
    (hq1 : q1 = squote ∨ q1 = '"') (hq2 : q2 = squote ∨ q2 = '"')
    (hne : q1 ≠ q2) (hfn : '\n' ∉ fname.data)
    (hlast : fname.data.getLast? ≠ some q1) :
    ChangelogEntry.parse (mkLine1 (mkTimeStr www dt) action q1 q2 fname) b c =
      Except.error
        (PyError.parseError "SpiderOak output matched incorrectly.") := by
  have h1 := matchLine1_mkLine1 www dt action q1 q2 fname hw hdt ha hq1
  rw [if_neg (fun hx => hne hx.symm)] at h1
  unfold ChangelogEntry.parse
  rw [h1]

/-- C9 as amended: every ParseError that ChangelogEntry.parse raises
carries the one fixed message, independent of the offending triplet; the
triplet text is not included. -/
theorem C9_parse_error_message_fixed (a b c : String) (m : String)
    (h : ChangelogEntry.parse a b c = Except.error (PyError.parseError m)) :
    m = "SpiderOak output matched incorrectly." := by
  unfold ChangelogEntry.parse at h
  rcases h1 : matchLine1 a.data with _ | ⟨tS, act, q, tgt⟩ <;>
    rcases h2 : matchLine2 b.data with _ | ⟨ty, mo, ui, gi, si⟩ <;>
      rcases h3 : matchLine3 c.data with _ | ⟨mtS, ctS⟩ <;>
        rw [h1, h2, h3] at h
  all_goals try (simp at h; exact h.symm)
  have h2 : (match strptime tS with
      | Except.error em => Except.error (PyError.valueError em)
      | Except.ok time =>
        match strptime mtS with
        | Except.error em => Except.error (PyError.valueError em)
        | Except.ok mtime =>
          match strptime ctS with
          | Except.error em => Except.error (PyError.valueError em)
          | Except.ok ctime =>
            (Except.ok ⟨time, act, tgt, ty, mo, ui, gi, si, mtime, ctime⟩ :
              Except PyError ChangelogEntry)) =
      Except.error (PyError.parseError m) := h
  clear h
  rcases hs1 : strptime tS with em | d1 <;> rw [hs1] at h2
  · simp at h2
  · rcases hs2 : strptime mtS with em | d2 <;> rw [hs2] at h2
    · simp at h2
    · rcases hs3 : strptime ctS with em | d3 <;> rw [hs3] at h2
      · simp at h2
      · simp at h2

/-- C8 as amended: when all three grammar lines match but the time capture
fails conversion in datetime.strptime, parse fails with the generic
ValueError of strptime, propagated untranslated, and not with a
ParseError. -/
theorem C8_conversion_failure_generic (a b c : String)
    (tS : List Char) (act : String) (q : Char) (tgt : String)
    (v2 : String × Nat × Nat × Nat × Nat) (v3 : List Char × List Char)
    (m : String)
    (h1 : matchLine1 a.data = some (tS, act, q, tgt))
    (h2 : matchLine2 b.data = some v2)
    (h3 : matchLine3 c.data = some v3)
    (hs : strptime tS = Except.error m) :
    ChangelogEntry.parse a b c = Except.error (PyError.valueError m) := by
  obtain ⟨ty, mo, ui, gi, si⟩ := v2
  obtain ⟨mtS, ctS⟩ := v3
  unfold ChangelogEntry.parse
  rw [h1, h2, h3]
  show (match strptime tS with
      | Except.error em => Except.error (PyError.valueError em)
      | Except.ok time =>
        match strptime mtS with
        | Except.error em => Except.error (PyError.valueError em)
        | Except.ok mtime =>
          match strptime ctS with
          | Except.error em => Except.error (PyError.valueError em)
          | Except.ok ctime =>
            (Except.ok ⟨time, act, tgt, ty, mo, ui, gi, si, mtime, ctime⟩ :
              Except PyError ChangelogEntry)) =
      Except.error (PyError.valueError m)
  rw [hs]

/-- Witness for C2: a double-quoted triplet whose target name holds a
single quote, a space and a Unicode letter round-trips exactly. -/
theorem C2_parse_round_trip_witness :
    ("Mon" ∈ weekdayAbbrevs ∧ "Tue" ∈ weekdayAbbrevs ∧
     "Wed" ∈ weekdayAbbrevs ∧
     DateTime.valid ⟨2015, 6, 1, 12, 34, 56⟩ = true ∧
     DateTime.valid ⟨2016, 2, 29, 0, 0, 59⟩ = true ∧
     DateTime.valid ⟨2015, 12, 31, 23, 59, 0⟩ = true ∧
     isWordString "add" = true ∧ isWordString "file" = true ∧
     (('"' : Char) = squote ∨ ('"' : Char) = '"') ∧ '\n' ∉ fnameC2.data) ∧
    ChangelogEntry.parse
        (mkLine1 (mkTimeStr "Mon" ⟨2015, 6, 1, 12, 34, 56⟩) "add" '"' '"'
          fnameC2)
        (mkLine2 "file" 644 1000 1000 4096)
        (mkLine3 (mkTimeStr "Tue" ⟨2016, 2, 29, 0, 0, 59⟩)
          (mkTimeStr "Wed" ⟨2015, 12, 31, 23, 59, 0⟩)) =
      Except.ok ⟨⟨2015, 6, 1, 12, 34, 56⟩, "add", fnameC2, "file", 644, 1000,
        1000, 4096, ⟨2016, 2, 29, 0, 0, 59⟩, ⟨2015, 12, 31, 23, 59, 0⟩⟩ :=
  ⟨⟨by decide, by decide, by decide, by decide, by decide, by decide,
    by decide, by decide, Or.inr rfl, by decide⟩,
   C2_parse_round_trip "Mon" "Tue" "Wed" ⟨2015, 6, 1, 12, 34, 56⟩
     ⟨2016, 2, 29, 0, 0, 59⟩ ⟨2015, 12, 31, 23, 59, 0⟩ "add" '"' fnameC2
     "file" 644 1000 1000 4096 (by decide) (by decide) (by decide)
     (by decide) (by decide) (by decide) (by decide) (by decide)
     (Or.inr rfl) (by decide)⟩

/-- Witness for C5: an opening double quote closed by a single quote. -/
theorem C5_mismatched_quote_witness :
    ("Mon" ∈ weekdayAbbrevs ∧
     DateTime.valid ⟨2015, 6, 1, 12, 34, 56⟩ = true ∧
     isWordString "add" = true ∧
     (('"' : Char) = squote ∨ ('"' : Char) = '"') ∧
     (squote = squote ∨ squote = '"') ∧ ('"' : Char) ≠ squote ∧
     '\n' ∉ "f.txt".data ∧ "f.txt".data.getLast? ≠ some '"') ∧
    ChangelogEntry.parse
        (mkLine1 (mkTimeStr "Mon" ⟨2015, 6, 1, 12, 34, 56⟩) "add" '"' squote
          "f.txt") lineA2 lineA3 =
      Except.error
        (PyError.parseError "SpiderOak output matched incorrectly.") :=
  ⟨⟨by decide, by decide, by decide, Or.inr rfl, Or.inl rfl, by decide,
    by decide, by decide⟩,
   C5_mismatched_quote "Mon" ⟨2015, 6, 1, 12, 34, 56⟩ "add" '"' squote
     "f.txt" lineA2 lineA3 (by decide) (by decide) (by decide) (Or.inr rfl)
     (Or.inl rfl) (by decide) (by decide) (by decide)⟩

/-- Counterexample for C8 as stated: on a triplet whose day of month is 99
the parse error is a generic ValueError, not a ParseError, so a
language-runtime conversion error does leak untranslated to the caller. -/
theorem C8_counterexample :
    (∃ m, ChangelogEntry.parse lineBadTime1 lineB2 lineB3 =
        Except.error (PyError.valueError m)) ∧
    ∀ m, ChangelogEntry.parse lineBadTime1 lineB2 lineB3 ≠
        Except.error (PyError.parseError m) := by
  constructor
  · exact ⟨"time data does not match format %a %b %d %H:%M:%S %Y", rfl⟩
  · intro m h
    have h2 : (Except.error (PyError.valueError
        "time data does not match format %a %b %d %H:%M:%S %Y") :
          Except PyError ChangelogEntry) =
        Except.error (PyError.parseError m) := h
    simp at h2

/-- Witness for C8 as amended: day 99 matches the digit run of the grammar
but fails strptime, and the resulting error is the generic ValueError. -/
theorem C8_conversion_failure_generic_witness :
    (matchLine1 lineBadTime1.data =
       some ("Mon Jun 99 12:34:56 2015".data, "add", '"', "f.txt") ∧
     matchLine2 lineB2.data = some ("file", 600, 1000, 100, 0) ∧
     matchLine3 lineB3.data =
       some ("Tue Jun 2 01:02:03 2015".data, "Mon Jun 1 12:34:56 2015".data) ∧
     strptime "Mon Jun 99 12:34:56 2015".data =
       Except.error "time data does not match format %a %b %d %H:%M:%S %Y") ∧
    ChangelogEntry.parse lineBadTime1 lineB2 lineB3 =
      Except.error (PyError.valueError
        "time data does not match format %a %b %d %H:%M:%S %Y") :=
  ⟨⟨rfl, rfl, rfl, rfl⟩,
   C8_conversion_failure_generic lineBadTime1 lineB2 lineB3
     "Mon Jun 99 12:34:56 2015".data "add" '"' "f.txt"
     ("file", 600, 1000, 100, 0)
     ("Tue Jun 2 01:02:03 2015".data, "Mon Jun 1 12:34:56 2015".data)
     "time data does not match format %a %b %d %H:%M:%S %Y"
     rfl rfl rfl rfl⟩

/-- Counterexample for C9 as stated: two different malformed triplets
raise the identical ParseError carrying a fixed message that does not
contain the offending line, so the error cannot identify which triplet
failed. -/
theorem C9_counterexample :
    ChangelogEntry.parse "garbage one" lineA2 lineA3 =
      Except.error
        (PyError.parseError "SpiderOak output matched incorrectly.") ∧
    ChangelogEntry.parse "garbage two" lineA2 lineA3 =
      Except.error
        (PyError.parseError "SpiderOak output matched incorrectly.") ∧
    ("garbage one" : String) ≠ "garbage two" ∧
    ¬ ("garbage one".data <:+: "SpiderOak output matched incorrectly.".data) :=
  ⟨rfl, rfl, by decide, by decide⟩

/-- Witness for C9 as amended, at a concrete garbage first line. -/
theorem C9_parse_error_message_fixed_witness :
    ChangelogEntry.parse "garbage" lineA2 lineA3 =
      Except.error
        (PyError.parseError "SpiderOak output matched incorrectly.") ∧
    ("SpiderOak output matched incorrectly." : String) =
      "SpiderOak output matched incorrectly." :=
  ⟨rfl, C9_parse_error_message_fixed "garbage" lineA2 lineA3 _ rfl⟩
